import Mathlib

/-!
Shallow embedding of the Tonk game core from `src/app.py` (the single
authoritative implementation of the session state machine and move
processor: `create_game` deck construction, `start_game`, `make_move`
and `process_move`).

Python dicts for cards and spreads become structures; in-place mutation
becomes explicit state passing returning a new `Game`; list `pop()` from
the end of a Python list (the deck top) becomes `getLast?`/`dropLast`;
`list.pop(i)` after a `next(... enumerate ...)` id search becomes
`popById`.  The `uuid4` identifiers are modeled as ordinary strings
(fresh ids are replaced by deterministic placeholder strings, since no
claim depends on their value), and `random.shuffle` is modeled by
letting the deck order of a lobby session be arbitrary.  Wall-clock
timestamps carried in `last_move` are elided.  The HTTP/auth layer is
out of scope: `make_move` is modeled for an unauthenticated caller, so
the `current_user` ownership branch (which only fires for authenticated
requests) is not taken.
-/

/-- One card, mirroring the card dicts built in `create_game`. -/
structure Card where
  id : String
  suit : String
  rank : String
  value : Nat
  isFaceUp : Bool
  recentlyDrawn : Bool
deriving DecidableEq, Repr

/-- A spread (meld), mirroring the spread dicts of `process_move`. -/
structure Spread where
  id : String
  cards : List Card
  owner : String
  type : String
deriving DecidableEq, Repr

/-- A player, mirroring the pydantic `Player` model (identity plumbing
fields `user_id` and `is_online` are elided). -/
structure Player where
  id : String
  name : String
  isComputer : Bool := false
  hand : List Card := []
  spreads : List Spread := []
  hasDropped : Bool := false
  score : Nat := 0
  lastMove : Option String := none
  turns : Nat := 0
  hasDrawnFromUnder : Bool := false
deriving DecidableEq, Repr

instance : Inhabited Player := ⟨{ id := "", name := "" }⟩

/-- The move payload, mirroring the `moveData` dict read by
`process_move` via `move_data.get(...)`. -/
structure MoveData where
  source : Option String := none
  cardId : Option String := none
  cards : List String := []
  spreadId : Option String := none
deriving DecidableEq, Repr

/-- The record `make_move` stores into `game.last_move` (its wall-clock
timestamp field is elided). -/
structure LastMove where
  playerId : String
  playerName : String
  moveType : String
  moveData : MoveData
deriving DecidableEq, Repr

/-- The game session, mirroring the pydantic `Game` model with its
defaults (`id`, `room_code`, `game_name`, `created_at`, `creator_id`
and `max_players` are lobby plumbing elided from the model; the
`settings` dict is represented by its single key). -/
structure Game where
  players : List Player
  deck : List Card
  discardPile : List Card
  underCard : Option Card := none
  currentPlayerIndex : Nat := 0
  turnPhase : String := "draw"
  tableSpreads : List Spread := []
  turnCount : Nat := 1
  gameStatus : String := "playing"
  lastMove : Option LastMove := none
  allowUnderCardAnyTurn : Bool := true
  winner : Option String := none
  winReason : Option String := none
deriving DecidableEq, Repr

/-- Result dict returned by `process_move`: either `{"success": True}`
or the `{"game_over": True, "winner": ..., "win_reason": ...}` dict. -/
inductive MoveResult where
  | success
  | gameOver (winner : String) (winReason : String)
deriving DecidableEq, Repr

/-- The HTTP error exits of `make_move` (raised before any mutation). -/
inductive MoveError where
  | playerNotFound
  | notYourTurn
deriving DecidableEq, Repr

/-- The HTTP error exits of `start_game`. -/
inductive StartError where
  | notEnoughPlayers
  | alreadyStarted
deriving DecidableEq, Repr

/-- Python truthiness of an optional string (`if card_id:` is false for
both `None` and the empty string). -/
def truthy : Option String → Bool
  | none => false
  | some s => !(s == "")

/-- Replacement for in-place mutation of `game.players[i]`. -/
def listModify : List α → Nat → (α → α) → List α
  | [], _, _ => []
  | a :: rest, 0, f => f a :: rest
  | a :: rest, n + 1, f => a :: listModify rest n f

/-- Update the player at index `i`, mirroring in-place mutation of the
`player` object bound by `process_move`. -/
def updatePlayer (g : Game) (i : Nat) (f : Player → Player) : Game :=
  { g with players := listModify g.players i f }

/-- Combined model of the source idiom
`next((i for i, c in enumerate(hand) if c["id"] == card_id), -1)`
followed by `hand.pop(i)`: remove the first card with the given id,
returning it together with the remaining hand. -/
def popById : List Card → String → Option (Card × List Card)
  | [], _ => none
  | c :: rest, cid =>
    if c.id = cid then some (c, rest)
    else
      match popById rest cid with
      | some (card, rest2) => some (card, c :: rest2)
      | none => none

/-- Same idiom for spreads: `next(... if s["id"] == spread_id ...)`
followed by `table_spreads.pop(i)`. -/
def popSpreadById : List Spread → String → Option (Spread × List Spread)
  | [], _ => none
  | s :: rest, sid =>
    if s.id = sid then some (s, rest)
    else
      match popSpreadById rest sid with
      | some (spread, rest2) => some (spread, s :: rest2)
      | none => none

/-- Append a card to the first spread with the given id, mirroring the
for-loop search plus `spread["cards"].append(card)`. -/
def addCardToSpread : List Spread → String → Card → List Spread
  | [], _, _ => []
  | s :: rest, sid, card =>
    if s.id = sid then { s with cards := s.cards ++ [card] } :: rest
    else s :: addCardToSpread rest sid card

/-- The createSpread collection loop: for each requested id in order,
pop the card from the hand when present; returns the collected cards
and the remaining hand. -/
def extractCards : List Card → List String → List Card × List Card
  | hand, [] => ([], hand)
  | hand, cid :: rest =>
    match popById hand cid with
    | some (card, hand2) =>
      let (cards, hand3) := extractCards hand2 rest
      (card :: cards, hand3)
    | none => extractCards hand rest

/-- The drop-branch while loop advancing past dropped seats; the fuel
argument bounds the scan (the Python loop terminates exactly when some
seat has not dropped, which the caller guarantees). -/
def nextActiveIndex (players : List Player) : Nat → Nat → Nat
  | 0, i => i
  | fuel + 1, i =>
    if (players.getD i default).hasDropped then
      nextActiveIndex players fuel ((i + 1) % players.length)
    else i

/-- The draw branch of `process_move`.  The Python `elif` chain guards
each source on non-emptiness; when the guard fails no later branch can
match (the `source` strings are mutually exclusive), so the call falls
through and returns the success dict without touching the session. -/
def processDraw (g : Game) (pi : Nat) (player : Player) (md : MoveData) :
    Game × MoveResult :=
  let source := md.source.getD "deck"
  if source = "deck" then
    match g.deck.getLast? with
    | some card =>
      let card := { card with isFaceUp := true }
      let g1 := { g with deck := g.deck.dropLast, turnPhase := "action" }
      (updatePlayer g1 pi (fun p =>
        { p with hand := p.hand ++ [card], lastMove := some "Drew from deck" }),
       .success)
    | none => (g, .success)
  else if source = "discard" then
    match g.discardPile.getLast? with
    | some card =>
      let card := { card with isFaceUp := true }
      let g1 := { g with discardPile := g.discardPile.dropLast, turnPhase := "action" }
      (updatePlayer g1 pi (fun p =>
        { p with hand := p.hand ++ [card], lastMove := some "Drew from discard" }),
       .success)
    | none => (g, .success)
  else if source = "under" then
    match g.underCard with
    | some card =>
      if g.allowUnderCardAnyTurn || player.turns > 0 then
        let card := { card with isFaceUp := true }
        let g1 := { g with underCard := none, turnPhase := "action" }
        (updatePlayer g1 pi (fun p =>
          { p with hand := p.hand ++ [card], hasDrawnFromUnder := true,
                   lastMove := some "Drew under card" }),
         .success)
      else (g, .success)
    | none => (g, .success)
  else (g, .success)

/-- The discard branch of `process_move`. -/
def processDiscard (g : Game) (pi : Nat) (player : Player) (md : MoveData) :
    Game × MoveResult :=
  if truthy md.cardId then
    match popById player.hand (md.cardId.getD "") with
    | none => (g, .success)
    | some (card0, newHand) =>
      let card := { card0 with isFaceUp := true }
      let g1 := updatePlayer g pi (fun p =>
        { p with hand := newHand,
                 lastMove := some ("Discarded " ++ card.rank ++ " of " ++ card.suit) })
      let g2 := { g1 with discardPile := g1.discardPile ++ [card] }
      if newHand.isEmpty then
        (g2, .gameOver player.id "Tonk Out!")
      else
        let g3 := { g2 with
          currentPlayerIndex := (g2.currentPlayerIndex + 1) % g2.players.length,
          turnCount := g2.turnCount + 1,
          turnPhase := "draw" }
        let g4 := updatePlayer g3 g3.currentPlayerIndex (fun p =>
          { p with turns := p.turns + 1 })
        (g4, .success)
  else (g, .success)

/-- The tonk branch of `process_move`. -/
def processTonk (g : Game) (pi : Nat) (player : Player) : Game × MoveResult :=
  let handValue := (player.hand.map (·.value)).sum
  if handValue ≤ 5 then
    (g, .gameOver player.id ("Tonk! (Hand value: " ++ toString handValue ++ ")"))
  else
    let g1 := updatePlayer g pi (fun p => { p with score := p.score + 10 })
    let g2 := { g1 with
      currentPlayerIndex := (g1.currentPlayerIndex + 1) % g1.players.length,
      turnPhase := "draw" }
    (g2, .success)

/-- The drop branch of `process_move`.  The winner of the terminal case
is the head of the list of non-dropped players computed after the
acting player has been marked dropped; Python indexes it directly
(guaranteed non-empty by the length guard), modeled with `headD`. -/
def processDrop (g : Game) (pi : Nat) (_player : Player) : Game × MoveResult :=
  let g1 := updatePlayer g pi (fun p =>
    { p with hasDropped := true, lastMove := some "Dropped out",
             score := (p.hand.map (·.value)).sum })
  let active := g1.players.filter (fun p => !p.hasDropped)
  if active.length = 1 then
    (g1, .gameOver (active.headD default).id "All other players dropped")
  else
    let g2 := { g1 with
      currentPlayerIndex :=
        nextActiveIndex g1.players g1.players.length ((pi + 1) % g1.players.length),
      turnPhase := "draw" }
    (g2, .success)

/-- The createSpread branch of `process_move`.  When three or more ids
are supplied but fewer than three resolve to cards in the hand, the
resolved cards have already been popped from the hand and no spread is
created: the inner else keeps the shrunken hand (the popped cards leave
the session). The fresh uuid of a new spread is modeled by a
deterministic placeholder string. -/
def processCreateSpread (g : Game) (pi : Nat) (player : Player) (md : MoveData) :
    Game × MoveResult :=
  if md.cards.length ≥ 3 then
    let (spreadCards, newHand) := extractCards player.hand md.cards
    if spreadCards.length ≥ 3 then
      let spread : Spread :=
        { id := "new-spread", cards := spreadCards, owner := player.id,
          type := "player" }
      (updatePlayer g pi (fun p =>
        { p with hand := newHand, spreads := p.spreads ++ [spread],
                 lastMove := some ("Created spread with " ++
                   toString spreadCards.length ++ " cards") }),
       .success)
    else
      (updatePlayer g pi (fun p => { p with hand := newHand }), .success)
  else (g, .success)

/-- The addToSpread branch of `process_move`.  The card is popped from
the hand before the spread lookup; when neither the player spreads nor
the table spreads contain the id, the hand stays shrunken and the card
leaves the session. -/
def processAddToSpread (g : Game) (pi : Nat) (player : Player) (md : MoveData) :
    Game × MoveResult :=
  if truthy md.spreadId && truthy md.cardId then
    let sid := md.spreadId.getD ""
    match popById player.hand (md.cardId.getD "") with
    | none => (g, .success)
    | some (card, newHand) =>
      if player.spreads.any (fun s => s.id == sid) then
        (updatePlayer g pi (fun p =>
          { p with hand := newHand, spreads := addCardToSpread p.spreads sid card,
                   lastMove := some "Added card to spread" }),
         .success)
      else if g.tableSpreads.any (fun s => s.id == sid) then
        let g1 := updatePlayer g pi (fun p =>
          { p with hand := newHand, lastMove := some "Added card to spread" })
        ({ g1 with tableSpreads := addCardToSpread g1.tableSpreads sid card },
         .success)
      else
        (updatePlayer g pi (fun p => { p with hand := newHand }), .success)
  else (g, .success)

/-- The hit branch of `process_move`.  As in addToSpread, the hitting
card is popped from the hand before the table spread lookup and is lost
when the spread id does not resolve. -/
def processHit (g : Game) (pi : Nat) (player : Player) (md : MoveData) :
    Game × MoveResult :=
  if truthy md.spreadId && truthy md.cardId then
    match popById player.hand (md.cardId.getD "") with
    | none => (g, .success)
    | some (card, newHand) =>
      match popSpreadById g.tableSpreads (md.spreadId.getD "") with
      | some (spread, remaining) =>
        let g1 := { g with tableSpreads := remaining }
        (updatePlayer g1 pi (fun p =>
          { p with hand := newHand ++ spread.cards ++ [card],
                   lastMove := some ("Hit a spread and took " ++
                     toString spread.cards.length ++ " cards") }),
         .success)
      | none =>
        (updatePlayer g pi (fun p => { p with hand := newHand }), .success)
  else (g, .success)

/-- The `process_move` dispatcher: binds the acting player once, then
runs the branch selected by the move type string; any other string
falls through every branch and returns the success dict unchanged.
When the index is out of range (impossible from `make_move`, which
validated it) the session is returned unchanged. -/
def processMove (g : Game) (pi : Nat) (mt : String) (md : MoveData) :
    Game × MoveResult :=
  match g.players[pi]? with
  | none => (g, .success)
  | some player =>
    if mt = "draw" then processDraw g pi player md
    else if mt = "discard" then processDiscard g pi player md
    else if mt = "tonk" then processTonk g pi player
    else if mt = "drop" then processDrop g pi player
    else if mt = "createSpread" then processCreateSpread g pi player md
    else if mt = "addToSpread" then processAddToSpread g pi player md
    else if mt = "hit" then processHit g pi player md
    else (g, .success)

/-- The `make_move` endpoint for a command on an existing session:
resolves the player id to a seat, rejects when the seat is not the
current one, runs `process_move`, records `last_move`, and on a
terminal result sets `game_status`, `winner` and `win_reason`.  Note
that no branch consults `game_status`.  The per-user statistics update
touches the external users store only and is out of scope. -/
def applyMove (g : Game) (playerId : String) (moveType : String) (md : MoveData) :
    Game × Except MoveError MoveResult :=
  match g.players.findIdx? (fun p => p.id == playerId) with
  | none => (g, .error .playerNotFound)
  | some pIdx =>
    if g.currentPlayerIndex ≠ pIdx then (g, .error .notYourTurn)
    else
      let pr := processMove g pIdx moveType md
      let playerName := (g.players[pIdx]?.map (·.name)).getD ""
      let lm : LastMove :=
        { playerId := playerId, playerName := playerName,
          moveType := moveType, moveData := md }
      let g1 := { pr.1 with lastMove := some lm }
      match pr.2 with
      | .gameOver w r =>
        ({ g1 with gameStatus := "game_over", winner := some w, winReason := some r },
         .ok (.gameOver w r))
      | .success => (g1, .ok .success)

/-- Pop one card from the deck top into the hand, face up, mirroring
one iteration of the dealing loop in `start_game` (which skips the
iteration when the deck is empty). -/
def dealOne (deck hand : List Card) : List Card × List Card :=
  match deck.getLast? with
  | some card => (deck.dropLast, hand ++ [{ card with isFaceUp := true }])
  | none => (deck, hand)

/-- Deal `n` cards from the deck top into a hand. -/
def dealN : Nat → List Card → List Card → List Card × List Card
  | 0, deck, hand => (deck, hand)
  | n + 1, deck, hand =>
    let (d, h) := dealOne deck hand
    dealN n d h

/-- Deal five cards to each player in seat order, threading the deck,
mirroring the nested dealing loops of `start_game`. -/
def dealToPlayers (deck : List Card) : List Player → List Card × List Player
  | [] => (deck, [])
  | p :: rest =>
    let (d1, h1) := dealN 5 deck p.hand
    let (d2, ps) := dealToPlayers d1 rest
    (d2, { p with hand := h1 } :: ps)

/-- The `start_game` endpoint of `src/app.py`: rejects sessions with
fewer than two players or not in the lobby, deals five cards per player
in seat order from the deck top, seeds the discard pile with one card
face up, sets one card aside face up as the under-card, and marks the
session playing at seat 0, draw phase, turn 1.  The creator-only check
of the endpoint concerns the external auth layer and is not modeled
(it never fires for unauthenticated callers). -/
def startGame (g : Game) : Except StartError Game :=
  if g.players.length < 2 then .error .notEnoughPlayers
  else if g.gameStatus ≠ "lobby" then .error .alreadyStarted
  else
    let (d1, ps) := dealToPlayers g.deck g.players
    let (d2, pile) :=
      match d1.getLast? with
      | some c => (d1.dropLast, g.discardPile ++ [{ c with isFaceUp := true }])
      | none => (d1, g.discardPile)
    let (d3, under) :=
      match d2.getLast? with
      | some c => (d2.dropLast, some { c with isFaceUp := true })
      | none => (d2, (none : Option Card))
    .ok { g with players := ps, deck := d3, discardPile := pile, underCard := under,
                 gameStatus := "playing", currentPlayerIndex := 0,
                 turnPhase := "draw", turnCount := 1 }

/-- Card value mapping of `create_game`: J, Q, K are 10, A is 1, the
numeral ranks are their numeral. -/
def rankValue (rank : String) : Nat :=
  if rank = "J" ∨ rank = "Q" ∨ rank = "K" then 10
  else if rank = "A" then 1
  else (rank.toNat?).getD 0

/-- Suits in the order used by `create_game`. -/
def suits : List String := ["hearts", "diamonds", "clubs", "spades"]

/-- Ranks in the order used by `create_game`. -/
def ranks : List String :=
  ["A", "2", "3", "4", "5", "6", "7", "8", "9", "10", "J", "Q", "K"]

/-- The 52-card deck built by `create_game`, one card per (suit, rank)
pair in suit-major order; the uuid of each card is modeled by the
deterministic string `suit-rank`. -/
def buildDeck : List Card :=
  suits.flatMap fun suit =>
    ranks.map fun rank =>
      { id := suit ++ "-" ++ rank, suit := suit, rank := rank,
        value := rankValue rank, isFaceUp := false, recentlyDrawn := false }

/-- Total number of cards in a session: deck, discard pile, under-card
slot, every hand, every player-owned spread and every table spread. -/
def cardCount (g : Game) : Nat :=
  g.deck.length + g.discardPile.length
    + (if g.underCard.isSome then 1 else 0)
    + (g.players.map (fun p => p.hand.length)).sum
    + (g.players.map (fun p => (p.spreads.map (fun s => s.cards.length)).sum)).sum
    + (g.tableSpreads.map (fun s => s.cards.length)).sum

/-- Session with the stored status replaced. -/
def setStatus (g : Game) (s : String) : Game := { g with gameStatus := s }

/-- Session with the stored turn phase replaced. -/
def setPhase (g : Game) (p : String) : Game := { g with turnPhase := p }

/-- Whether a `make_move` outcome carried a terminal result. -/
def isTerminal : Except MoveError MoveResult → Bool
  | .ok (.gameOver _ _) => true
  | _ => false

/-- A fresh player as `create_game` seats one. -/
def mkPlayer (pid nm : String) : Player := { id := pid, name := nm }

/-- A concrete two-player lobby session as `create_game` produces it,
with the unshuffled `buildDeck` order (the identity permutation is one
possible shuffle outcome). -/
def sampleLobby : Game :=
  { players := [mkPlayer "p0" "Ann", mkPlayer "p1" "Bo"],
    deck := buildDeck, discardPile := [], gameStatus := "lobby" }

/-- The session reached by starting `sampleLobby`. -/
def sampleStart : Game :=
  match startGame sampleLobby with
  | .ok g => g
  | .error _ => sampleLobby

/-- The session reached from `sampleStart` by player p0 dropping, which
is a terminal move in a two-player game: status becomes game_over. -/
def sampleOver : Game := (applyMove sampleStart "p0" "drop" {}).1

/-- A concrete queen of spades. -/
def cardQS : Card :=
  { id := "c-qs", suit := "spades", rank := "Q", value := 10,
    isFaceUp := true, recentlyDrawn := false }

/-- A concrete ace of hearts. -/
def cardAH : Card :=
  { id := "c-ah", suit := "hearts", rank := "A", value := 1,
    isFaceUp := true, recentlyDrawn := false }

/-- A concrete two of hearts. -/
def card2H : Card :=
  { id := "c-2h", suit := "hearts", rank := "2", value := 2,
    isFaceUp := false, recentlyDrawn := false }

/-- A concrete three of hearts. -/
def card3H : Card :=
  { id := "c-3h", suit := "hearts", rank := "3", value := 3,
    isFaceUp := true, recentlyDrawn := false }

/-- Seat 0 holding only the queen of spades. -/
def oneCardP0 : Player := { mkPlayer "p0" "Ann" with hand := [cardQS] }

/-- A concrete playing session whose current player p0 holds a single
queen (value 10); p1 holds one ace. -/
def oneCardGame : Game :=
  { players := [oneCardP0, { mkPlayer "p1" "Bo" with hand := [cardAH] }],
    deck := [card2H],
    discardPile := [card3H] }

/-- Seat 0 holding an ace and a two, hand value 3. -/
def lowHandP0 : Player := { mkPlayer "p0" "Ann" with hand := [cardAH, card2H] }

/-- A concrete playing session whose current player p0 holds an ace and
a two, hand value 3. -/
def lowHandGame : Game :=
  { players := [lowHandP0, mkPlayer "p1" "Bo"],
    deck := [],
    discardPile := [] }

/-- A concrete playing session with an empty deck and an empty discard
pile (current player p0 holds one card). -/
def emptySourcesGame : Game :=
  { players := [oneCardP0, mkPlayer "p1" "Bo"],
    deck := [],
    discardPile := [] }

/-- C1.  Card-count conservation fails on the code: in the session
reached by starting a two-player single-deck game (a reachable state
with 52 cards in play), the current player submits a hit naming a card
in hand and a spread id that resolves to no table spread; the card is
popped from the hand and dropped, the call reports success, and the
total card count falls to 51. -/
theorem hit_unresolved_spread_loses_card :
    startGame sampleLobby = .ok sampleStart ∧
    cardCount sampleStart = 52 ∧
    (applyMove sampleStart "p0" "hit"
        { spreadId := some "nosuch", cardId := some "spades-K" }).2 = .ok .success ∧
    cardCount (applyMove sampleStart "p0" "hit"
        { spreadId := some "nosuch", cardId := some "spades-K" }).1 = 51 := by
  refine ⟨rfl, by decide, rfl, by decide⟩

/-- C3.  Atomicity of failure fails on the code: an addToSpread naming
a card in hand and a spread id that resolves nowhere does not fail (it
reports success) yet partially mutates the session — the card has been
removed from the hand of the acting player and credited nowhere. -/
theorem addToSpread_unresolved_partial_mutation :
    (applyMove sampleStart "p0" "addToSpread"
        { spreadId := some "nosuch", cardId := some "spades-Q" }).2 = .ok .success ∧
    ((applyMove sampleStart "p0" "addToSpread"
        { spreadId := some "nosuch", cardId := some "spades-Q" }).1.players.map
      (fun p => p.hand.length)) = [4, 5] ∧
    (sampleStart.players.map (fun p => p.hand.length)) = [5, 5] ∧
    cardCount (applyMove sampleStart "p0" "addToSpread"
        { spreadId := some "nosuch", cardId := some "spades-Q" }).1 = 51 := by
  refine ⟨rfl, by decide, by decide, by decide⟩

/-- C2 counterexample.  Terminal finality fails on the code: from the
reachable terminal session `sampleOver` (p0 dropped in a two-player
game, status game_over, winner p1), a further draw by the player at
`currentPlayerIndex` is not rejected — there is no GameNotPlaying
check — and it mutates the session, shrinking the deck from 40 to 39
cards. -/
theorem game_over_accepts_moves_cex :
    (applyMove sampleStart "p0" "drop" {}).2 =
      .ok (.gameOver "p1" "All other players dropped") ∧
    sampleOver.gameStatus = "game_over" ∧
    (applyMove sampleOver "p0" "draw" { source := some "deck" }).2 = .ok .success ∧
    sampleOver.deck.length = 40 ∧
    (applyMove sampleOver "p0" "draw" { source := some "deck" }).1.deck.length = 39 := by
  refine ⟨rfl, by decide, rfl, by decide, by decide⟩

/-- C5 counterexample.  Phase legality fails on the code: in the
reachable session `sampleStart` the phase is draw, yet a discard (an
action-phase move) by the current player is processed rather than
rejected — the call reports success, the turn passes to seat 1 and the
turn count increases. -/
theorem draw_phase_accepts_discard_cex :
    sampleStart.turnPhase = "draw" ∧
    (applyMove sampleStart "p0" "discard" { cardId := some "spades-K" }).2 =
      .ok .success ∧
    sampleStart.currentPlayerIndex = 0 ∧
    (applyMove sampleStart "p0" "discard"
        { cardId := some "spades-K" }).1.currentPlayerIndex = 1 ∧
    (applyMove sampleStart "p0" "discard"
        { cardId := some "spades-K" }).1.turnCount = 2 := by
  refine ⟨by decide, rfl, by decide, by decide, by decide⟩

/-- C6 counterexample.  The terminal win reason written by the discard
branch when the hand empties is the string with an exclamation mark,
not the string the claim names: at a concrete playing session whose
current player discards their only card, the outcome is terminal with
reason Tonk Out! and the stored win reason differs from the claimed
literal. -/
theorem discard_tonk_out_reason_cex :
    (applyMove oneCardGame "p0" "discard" { cardId := some "c-qs" }).2 =
      .ok (.gameOver "p0" "Tonk Out!") ∧
    (applyMove oneCardGame "p0" "discard"
        { cardId := some "c-qs" }).1.winReason = some "Tonk Out!" ∧
    (applyMove oneCardGame "p0" "discard"
        { cardId := some "c-qs" }).1.winReason ≠ some "Tonk Out" := by
  refine ⟨rfl, by decide, by decide⟩

/-- C7 counterexample.  The terminal win reason written by the tonk
branch embeds the hand value, so it is never the bare string the claim
names: at a concrete playing session whose current player holds hand
value 3, a tonk call produces a terminal outcome whose stored reason is
the interpolated string. -/
theorem tonk_reason_cex :
    (applyMove lowHandGame "p0" "tonk" {}).2 =
      .ok (.gameOver "p0" "Tonk! (Hand value: 3)") ∧
    (applyMove lowHandGame "p0" "tonk" {}).1.winReason =
      some "Tonk! (Hand value: 3)" ∧
    (applyMove lowHandGame "p0" "tonk" {}).1.winReason ≠ some "Tonk" := by
  refine ⟨rfl, by decide, by decide⟩

/-- C8 counterexample.  Drawing from an empty source does not fail: at
a concrete playing session with empty deck and empty discard pile, a
draw naming either source returns the success dict (the error type of
the processor has no EmptySource at all), no hand changes, and no card
moves. -/
theorem draw_empty_silent_noop_cex :
    (applyMove emptySourcesGame "p0" "draw" { source := some "deck" }).2 =
      .ok .success ∧
    (applyMove emptySourcesGame "p0" "draw" { source := some "discard" }).2 =
      .ok .success ∧
    ((applyMove emptySourcesGame "p0" "draw" { source := some "deck" }).1.players.map
      (fun p => p.hand)) = emptySourcesGame.players.map (fun p => p.hand) ∧
    ((applyMove emptySourcesGame "p0" "draw"
        { source := some "discard" }).1.players.map (fun p => p.hand)) =
      emptySourcesGame.players.map (fun p => p.hand) := by
  refine ⟨rfl, rfl, by decide, by decide⟩

/-- C4.  Turn ownership: when the player id resolves to a seat whose
index differs from `currentPlayerIndex`, `make_move` raises Not your
turn before any mutation, so the session comes back unchanged. -/
theorem notYourTurn_rejects_unmutated (g : Game) (pid mt : String) (md : MoveData)
    (i : Nat)
    (_hstatus : g.gameStatus = "playing")
    (hfind : g.players.findIdx? (fun p => p.id == pid) = some i)
    (hne : g.currentPlayerIndex ≠ i) :
    applyMove g pid mt md = (g, .error .notYourTurn) := by
  simp [applyMove, hfind, hne]

/-- C4 witness: at the started two-player session, a draw submitted by
the seated player p1 while seat 0 is current fails NotYourTurn and the
session is returned unchanged. -/
theorem notYourTurn_rejects_unmutated_witness :
    (sampleStart.gameStatus = "playing" ∧
     sampleStart.players.findIdx? (fun p => p.id == "p1") = some 1 ∧
     sampleStart.currentPlayerIndex ≠ 1) ∧
    applyMove sampleStart "p1" "draw" { source := some "deck" } =
      (sampleStart, .error .notYourTurn) :=
  ⟨⟨by decide, by decide, by decide⟩,
   notYourTurn_rejects_unmutated sampleStart "p1" "draw" { source := some "deck" } 1
     (by decide) (by decide) (by decide)⟩

/-- C10.  A move type that is none of the seven handled kinds falls
through every branch of `process_move`: the call returns the success
dict and the session is unchanged in every field. -/
theorem unknown_move_noop (g : Game) (pi : Nat) (mt : String) (md : MoveData)
    (_hstatus : g.gameStatus = "playing")
    (_hpi : pi < g.players.length)
    (h : mt ∉ ["draw", "discard", "tonk", "drop", "createSpread", "addToSpread", "hit"]) :
    processMove g pi mt md = (g, .success) := by
  simp only [List.mem_cons, List.mem_singleton, not_or] at h
  obtain ⟨h1, h2, h3, h4, h5, h6, h7, -⟩ := h
  rcases hx : g.players[pi]? with - | p
  · simp [processMove, hx]
  · simp [processMove, hx, h1, h2, h3, h4, h5, h6, h7]

/-- C10 witness: the session-lifecycle string startGame, which is not
one of the seven in-turn move kinds, is silently ignored by
`process_move` at the started sample session. -/
theorem unknown_move_noop_witness :
    (sampleStart.gameStatus = "playing" ∧ 0 < sampleStart.players.length ∧
     "startGame" ∉
       ["draw", "discard", "tonk", "drop", "createSpread", "addToSpread", "hit"]) ∧
    processMove sampleStart 0 "startGame" {} = (sampleStart, .success) :=
  ⟨⟨by decide, by decide, by decide⟩,
   unknown_move_noop sampleStart 0 "startGame" {} (by decide) (by decide) (by decide)⟩

/-- Projection facts for `setStatus`, used to align case splits. -/
@[simp] lemma setStatus_players (g : Game) (s : String) :
    (setStatus g s).players = g.players := rfl

@[simp] lemma setStatus_deck (g : Game) (s : String) :
    (setStatus g s).deck = g.deck := rfl

@[simp] lemma setStatus_discardPile (g : Game) (s : String) :
    (setStatus g s).discardPile = g.discardPile := rfl

@[simp] lemma setStatus_underCard (g : Game) (s : String) :
    (setStatus g s).underCard = g.underCard := rfl

@[simp] lemma setStatus_tableSpreads (g : Game) (s : String) :
    (setStatus g s).tableSpreads = g.tableSpreads := rfl

@[simp] lemma setStatus_allowUnderCardAnyTurn (g : Game) (s : String) :
    (setStatus g s).allowUnderCardAnyTurn = g.allowUnderCardAnyTurn := rfl

@[simp] lemma setStatus_currentPlayerIndex (g : Game) (s : String) :
    (setStatus g s).currentPlayerIndex = g.currentPlayerIndex := rfl

/-- Helper: the draw branch never reads or writes `game_status`. -/
lemma processDraw_setStatus (g : Game) (s : String) (pi : Nat) (player : Player)
    (md : MoveData) :
    processDraw (setStatus g s) pi player md =
      (setStatus (processDraw g pi player md).1 s, (processDraw g pi player md).2) := by
  unfold processDraw updatePlayer
  simp only [setStatus_players, setStatus_deck, setStatus_discardPile,
    setStatus_underCard, setStatus_allowUnderCardAnyTurn]
  repeat' split
  all_goals rfl

/-- Helper: the discard branch never reads or writes `game_status`. -/
lemma processDiscard_setStatus (g : Game) (s : String) (pi : Nat) (player : Player)
    (md : MoveData) :
    processDiscard (setStatus g s) pi player md =
      (setStatus (processDiscard g pi player md).1 s,
       (processDiscard g pi player md).2) := by
  unfold processDiscard updatePlayer
  simp only [setStatus_players, setStatus_discardPile, setStatus_currentPlayerIndex]
  repeat' split
  all_goals rfl

/-- Helper: the tonk branch never reads or writes `game_status`. -/
lemma processTonk_setStatus (g : Game) (s : String) (pi : Nat) (player : Player) :
    processTonk (setStatus g s) pi player =
      (setStatus (processTonk g pi player).1 s, (processTonk g pi player).2) := by
  unfold processTonk updatePlayer
  simp only [setStatus_players, setStatus_currentPlayerIndex]
  repeat' split
  all_goals rfl

/-- Helper: the drop branch never reads or writes `game_status`. -/
lemma processDrop_setStatus (g : Game) (s : String) (pi : Nat) (player : Player) :
    processDrop (setStatus g s) pi player =
      (setStatus (processDrop g pi player).1 s, (processDrop g pi player).2) := by
  unfold processDrop updatePlayer
  simp only [setStatus_players]
  repeat' split
  all_goals rfl

/-- Helper: the createSpread branch never reads or writes `game_status`. -/
lemma processCreateSpread_setStatus (g : Game) (s : String) (pi : Nat)
    (player : Player) (md : MoveData) :
    processCreateSpread (setStatus g s) pi player md =
      (setStatus (processCreateSpread g pi player md).1 s,
       (processCreateSpread g pi player md).2) := by
  unfold processCreateSpread updatePlayer
  simp only [setStatus_players]
  repeat' split
  all_goals rfl

/-- Helper: the addToSpread branch never reads or writes `game_status`. -/
lemma processAddToSpread_setStatus (g : Game) (s : String) (pi : Nat)
    (player : Player) (md : MoveData) :
    processAddToSpread (setStatus g s) pi player md =
      (setStatus (processAddToSpread g pi player md).1 s,
       (processAddToSpread g pi player md).2) := by
  unfold processAddToSpread updatePlayer
  simp only [setStatus_players, setStatus_tableSpreads]
  repeat' split
  all_goals rfl

/-- Helper: the hit branch never reads or writes `game_status`. -/
lemma processHit_setStatus (g : Game) (s : String) (pi : Nat) (player : Player)
    (md : MoveData) :
    processHit (setStatus g s) pi player md =
      (setStatus (processHit g pi player md).1 s, (processHit g pi player md).2) := by
  unfold processHit updatePlayer
  simp only [setStatus_players, setStatus_tableSpreads]
  repeat' split
  all_goals rfl

/-- Helper: `process_move` never reads or writes `game_status`: it
commutes with replacing the stored status. -/
lemma processMove_setStatus (g : Game) (s : String) (pi : Nat) (mt : String)
    (md : MoveData) :
    processMove (setStatus g s) pi mt md =
      (setStatus (processMove g pi mt md).1 s, (processMove g pi mt md).2) := by
  unfold processMove
  simp only [setStatus_players]
  rcases hp : g.players[pi]? with - | player
  · simp only [hp]
  · simp only [hp]
    split
    · exact processDraw_setStatus g s pi player md
    · split
      · exact processDiscard_setStatus g s pi player md
      · split
        · exact processTonk_setStatus g s pi player
        · split
          · exact processDrop_setStatus g s pi player
          · split
            · exact processCreateSpread_setStatus g s pi player md
            · split
              · exact processAddToSpread_setStatus g s pi player md
              · split
                · exact processHit_setStatus g s pi player md
                · rfl

/-- C2 (amended).  Terminal states are not final: `make_move` never
consults `game_status`, so a session whose status is game_over (or any
other status) handles every call exactly as the same session would with
any other stored status — identical error or success outcome and
identical resulting state, except that the stored status itself is
carried through on non-terminal outcomes and forced to game_over on
terminal ones.  In particular there is no GameNotPlaying rejection. -/
theorem applyMove_ignores_game_status (g : Game) (s pid mt : String) (md : MoveData) :
    applyMove (setStatus g s) pid mt md =
      (if isTerminal (applyMove g pid mt md).2 then (applyMove g pid mt md).1
       else setStatus (applyMove g pid mt md).1 s,
       (applyMove g pid mt md).2) := by
  unfold applyMove
  simp only [setStatus_players, setStatus_currentPlayerIndex]
  rcases hf : g.players.findIdx? (fun p => p.id == pid) with - | i
  · simp only [hf]
    rfl
  · simp only [hf]
    by_cases hi : g.currentPlayerIndex ≠ i
    · simp only [if_pos hi]
      rfl
    · simp only [if_neg hi]
      rw [processMove_setStatus]
      rcases hpr : processMove g i mt md with ⟨g1, r⟩
      simp only [hpr]
      rcases r with - | ⟨w, rr⟩
      · rfl
      · rfl

/-- Session with the stored phase blanked, used to compare states up to
the `turn_phase` field. -/
def erasePhase (g : Game) : Game := { g with turnPhase := "" }

/-- Projection facts for `setPhase`, used to align case splits. -/
@[simp] lemma setPhase_players (g : Game) (p : String) :
    (setPhase g p).players = g.players := rfl

@[simp] lemma setPhase_deck (g : Game) (p : String) :
    (setPhase g p).deck = g.deck := rfl

@[simp] lemma setPhase_discardPile (g : Game) (p : String) :
    (setPhase g p).discardPile = g.discardPile := rfl

@[simp] lemma setPhase_underCard (g : Game) (p : String) :
    (setPhase g p).underCard = g.underCard := rfl

@[simp] lemma setPhase_tableSpreads (g : Game) (p : String) :
    (setPhase g p).tableSpreads = g.tableSpreads := rfl

@[simp] lemma setPhase_allowUnderCardAnyTurn (g : Game) (p : String) :
    (setPhase g p).allowUnderCardAnyTurn = g.allowUnderCardAnyTurn := rfl

@[simp] lemma setPhase_currentPlayerIndex (g : Game) (p : String) :
    (setPhase g p).currentPlayerIndex = g.currentPlayerIndex := rfl

/-- Helper: the draw branch never reads `turn_phase`. -/
lemma processDraw_setPhase (g : Game) (p : String) (pi : Nat) (player : Player)
    (md : MoveData) :
    (erasePhase (processDraw (setPhase g p) pi player md).1,
     (processDraw (setPhase g p) pi player md).2) =
      (erasePhase (processDraw g pi player md).1, (processDraw g pi player md).2) := by
  unfold processDraw updatePlayer
  simp only [setPhase_players, setPhase_deck, setPhase_discardPile,
    setPhase_underCard, setPhase_allowUnderCardAnyTurn]
  repeat' split
  all_goals rfl

/-- Helper: the discard branch never reads `turn_phase`. -/
lemma processDiscard_setPhase (g : Game) (p : String) (pi : Nat) (player : Player)
    (md : MoveData) :
    (erasePhase (processDiscard (setPhase g p) pi player md).1,
     (processDiscard (setPhase g p) pi player md).2) =
      (erasePhase (processDiscard g pi player md).1,
       (processDiscard g pi player md).2) := by
  unfold processDiscard updatePlayer
  simp only [setPhase_players, setPhase_discardPile, setPhase_currentPlayerIndex]
  repeat' split
  all_goals rfl

/-- Helper: the tonk branch never reads `turn_phase`. -/
lemma processTonk_setPhase (g : Game) (p : String) (pi : Nat) (player : Player) :
    (erasePhase (processTonk (setPhase g p) pi player).1,
     (processTonk (setPhase g p) pi player).2) =
      (erasePhase (processTonk g pi player).1, (processTonk g pi player).2) := by
  unfold processTonk updatePlayer
  simp only [setPhase_players, setPhase_currentPlayerIndex]
  repeat' split
  all_goals rfl

/-- Helper: the drop branch never reads `turn_phase`. -/
lemma processDrop_setPhase (g : Game) (p : String) (pi : Nat) (player : Player) :
    (erasePhase (processDrop (setPhase g p) pi player).1,
     (processDrop (setPhase g p) pi player).2) =
      (erasePhase (processDrop g pi player).1, (processDrop g pi player).2) := by
  unfold processDrop updatePlayer
  simp only [setPhase_players]
  repeat' split
  all_goals rfl

/-- Helper: the createSpread branch never reads `turn_phase`. -/
lemma processCreateSpread_setPhase (g : Game) (p : String) (pi : Nat)
    (player : Player) (md : MoveData) :
    (erasePhase (processCreateSpread (setPhase g p) pi player md).1,
     (processCreateSpread (setPhase g p) pi player md).2) =
      (erasePhase (processCreateSpread g pi player md).1,
       (processCreateSpread g pi player md).2) := by
  unfold processCreateSpread updatePlayer
  simp only [setPhase_players]
  repeat' split
  all_goals rfl

/-- Helper: the addToSpread branch never reads `turn_phase`. -/
lemma processAddToSpread_setPhase (g : Game) (p : String) (pi : Nat)
    (player : Player) (md : MoveData) :
    (erasePhase (processAddToSpread (setPhase g p) pi player md).1,
     (processAddToSpread (setPhase g p) pi player md).2) =
      (erasePhase (processAddToSpread g pi player md).1,
       (processAddToSpread g pi player md).2) := by
  unfold processAddToSpread updatePlayer
  simp only [setPhase_players, setPhase_tableSpreads]
  repeat' split
  all_goals rfl

/-- Helper: the hit branch never reads `turn_phase`. -/
lemma processHit_setPhase (g : Game) (p : String) (pi : Nat) (player : Player)
    (md : MoveData) :
    (erasePhase (processHit (setPhase g p) pi player md).1,
     (processHit (setPhase g p) pi player md).2) =
      (erasePhase (processHit g pi player md).1, (processHit g pi player md).2) := by
  unfold processHit updatePlayer
  simp only [setPhase_players, setPhase_tableSpreads]
  repeat' split
  all_goals rfl

/-- C5 (amended).  The Move Processor performs no phase-legality check:
`process_move` never reads `turn_phase`, so every move type is accepted
and has an identical result and identical effect on every field other
than `turn_phase` itself, whatever the stored phase.  In particular an
action-phase move submitted during the draw phase is processed rather
than rejected, and a draw submitted during the action phase draws
again. -/
theorem processMove_ignores_turn_phase (g : Game) (p : String) (pi : Nat)
    (mt : String) (md : MoveData) :
    (erasePhase (processMove (setPhase g p) pi mt md).1,
     (processMove (setPhase g p) pi mt md).2) =
      (erasePhase (processMove g pi mt md).1, (processMove g pi mt md).2) := by
  unfold processMove
  simp only [setPhase_players]
  rcases hp : g.players[pi]? with - | player
  · simp only [hp]
    rfl
  · simp only [hp]
    split
    · exact processDraw_setPhase g p pi player md
    · split
      · exact processDiscard_setPhase g p pi player md
      · split
        · exact processTonk_setPhase g p pi player
        · split
          · exact processDrop_setPhase g p pi player
          · split
            · exact processCreateSpread_setPhase g p pi player md
            · split
              · exact processAddToSpread_setPhase g p pi player md
              · split
                · exact processHit_setPhase g p pi player md
                · rfl

/-- Modifying index `n` preserves the length. -/
@[simp] lemma listModify_length (l : List α) (n : Nat) (f : α → α) :
    (listModify l n f).length = l.length := by
  induction l generalizing n with
  | nil => rfl
  | cons a rest ih =>
    cases n with
    | zero => rfl
    | succ m => simpa [listModify] using ih m

/-- Lookup at the modified index applies the modification. -/
lemma listModify_getElem_eq (l : List α) (n : Nat) (f : α → α) :
    (listModify l n f)[n]? = (l[n]?).map f := by
  induction l generalizing n with
  | nil => rfl
  | cons a rest ih =>
    cases n with
    | zero => simp [listModify]
    | succ m => simpa [listModify] using ih m

/-- Lookup away from the modified index is unchanged. -/
lemma listModify_getElem_ne (l : List α) (m n : Nat) (f : α → α) (h : m ≠ n) :
    (listModify l n f)[m]? = l[m]? := by
  induction l generalizing m n with
  | nil => rfl
  | cons a rest ih =>
    cases n with
    | zero =>
      cases m with
      | zero => exact absurd rfl h
      | succ k => simp [listModify]
    | succ j =>
      cases m with
      | zero => simp [listModify]
      | succ k =>
        simpa [listModify] using ih k j (by omega)

/-- In a game of at least two seats the next seat differs from the
current one. -/
lemma succ_mod_ne (n i : Nat) (h2 : 2 ≤ n) (hi : i < n) : (i + 1) % n ≠ i := by
  rcases Nat.lt_or_ge (i + 1) n with h | h
  · rw [Nat.mod_eq_of_lt h]
    omega
  · have hin : i + 1 = n := by omega
    rw [hin, Nat.mod_self]
    omega

/-- C6 (amended).  Discard semantics: when the current player holds the
named card, the discard branch removes exactly that card from the hand
and appends it face up to the discard pile; if the hand empties, the
outcome is terminal with that player as winner and reason Tonk Out!
(with an exclamation mark, not the bare Tonk Out the spec names) and
the session enters game_over; otherwise the seat advances by one modulo
the seat count, the turn count increments, the phase resets to draw,
and the new current player gains a turn. -/
theorem discard_semantics (g : Game) (pid cid : String) (md : MoveData)
    (pl : Player) (c : Card) (rest : List Card)
    (hstatus : g.gameStatus = "playing")
    (hn : 2 ≤ g.players.length)
    (hfind : g.players.findIdx? (fun p => p.id == pid) = some g.currentPlayerIndex)
    (hget : g.players[g.currentPlayerIndex]? = some pl)
    (hmd : md.cardId = some cid)
    (hcid : cid ≠ "")
    (hpop : popById pl.hand cid = some (c, rest)) :
    (rest = [] →
      (applyMove g pid "discard" md).2 = .ok (.gameOver pl.id "Tonk Out!") ∧
      (applyMove g pid "discard" md).1.gameStatus = "game_over" ∧
      (applyMove g pid "discard" md).1.winner = some pl.id ∧
      (applyMove g pid "discard" md).1.winReason = some "Tonk Out!" ∧
      (applyMove g pid "discard" md).1.discardPile =
        g.discardPile ++ [{ c with isFaceUp := true }] ∧
      ((applyMove g pid "discard" md).1.players[g.currentPlayerIndex]?).map
        Player.hand = some []) ∧
    (rest ≠ [] →
      (applyMove g pid "discard" md).2 = .ok .success ∧
      (applyMove g pid "discard" md).1.gameStatus = "playing" ∧
      (applyMove g pid "discard" md).1.discardPile =
        g.discardPile ++ [{ c with isFaceUp := true }] ∧
      ((applyMove g pid "discard" md).1.players[g.currentPlayerIndex]?).map
        Player.hand = some rest ∧
      (applyMove g pid "discard" md).1.currentPlayerIndex =
        (g.currentPlayerIndex + 1) % g.players.length ∧
      (applyMove g pid "discard" md).1.turnCount = g.turnCount + 1 ∧
      (applyMove g pid "discard" md).1.turnPhase = "draw" ∧
      ((applyMove g pid "discard" md).1.players[(g.currentPlayerIndex + 1) %
          g.players.length]?).map Player.turns =
        (g.players[(g.currentPlayerIndex + 1) % g.players.length]?).map
          (fun q => q.turns + 1)) := by
  have hlt : g.currentPlayerIndex < g.players.length := by
    by_contra hh
    push_neg at hh
    rw [List.getElem?_eq_none hh] at hget
    cases hget
  have hne := succ_mod_ne g.players.length g.currentPlayerIndex hn hlt
  constructor
  · intro h
    subst h
    refine ⟨?_, ?_, ?_, ?_, ?_, ?_⟩ <;>
      simp [applyMove, processMove, processDiscard, truthy, hfind, hget, hmd, hpop,
        hcid, updatePlayer, listModify_getElem_eq]
  · intro h
    have hemp : rest.isEmpty = false := by
      cases rest
      · exact absurd rfl h
      · rfl
    refine ⟨?_, ?_, ?_, ?_, ?_, ?_, ?_, ?_⟩ <;>
      simp [applyMove, processMove, processDiscard, truthy, hfind, hget, hmd, hpop,
        hcid, hemp, hstatus, updatePlayer, listModify_getElem_eq, Function.comp_def,
        listModify_getElem_ne _ _ _ _ hne, listModify_getElem_ne _ _ _ _ (Ne.symm hne)]

/-- C6 witness: at the concrete session where p0 holds only the queen
of spades, discarding it is a Tonk Out by p0. -/
theorem discard_semantics_witness :
    (oneCardGame.gameStatus = "playing" ∧ 2 ≤ oneCardGame.players.length ∧
     oneCardGame.players.findIdx? (fun p => p.id == "p0") =
       some oneCardGame.currentPlayerIndex ∧
     oneCardGame.players[oneCardGame.currentPlayerIndex]? = some oneCardP0 ∧
     popById oneCardP0.hand "c-qs" = some (cardQS, []) ∧ "c-qs" ≠ "") ∧
    (applyMove oneCardGame "p0" "discard" { cardId := some "c-qs" }).2 =
      .ok (.gameOver oneCardP0.id "Tonk Out!") :=
  ⟨⟨by decide, by decide, by decide, by decide, by decide, by decide⟩,
   ((discard_semantics oneCardGame "p0" "c-qs" { cardId := some "c-qs" }
       oneCardP0 cardQS [] (by decide) (by decide) (by decide) (by decide) rfl
       (by decide) (by decide)).1 rfl).1⟩

/-- Mapping a projection unaffected by the modification ignores it. -/
lemma map_listModify (l : List α) (n : Nat) (f : α → α) (h : α → β)
    (hh : ∀ a, h (f a) = h a) :
    (listModify l n f).map h = l.map h := by
  induction l generalizing n with
  | nil => rfl
  | cons a rest ih =>
    cases n with
    | zero => simp [listModify, hh]
    | succ m => simp [listModify, ih m]

/-- C7 (amended).  Tonk call semantics: the tonk branch sums the card
values of the callers hand; at most 5 yields a terminal outcome with
the caller as winner, whose reason string interpolates the hand value
(Tonk! (Hand value: v), not the bare Tonk the spec names); otherwise
the caller takes a 10-point penalty, the seat advances by one modulo
the seat count, the phase becomes draw, and no card changes location
(deck, discard pile, under-card, every hand, every spread and the table
are untouched). -/
theorem tonk_semantics (g : Game) (pid : String) (md : MoveData) (pl : Player)
    (hstatus : g.gameStatus = "playing")
    (hfind : g.players.findIdx? (fun p => p.id == pid) = some g.currentPlayerIndex)
    (hget : g.players[g.currentPlayerIndex]? = some pl) :
    ((pl.hand.map (fun cr => cr.value)).sum ≤ 5 →
      (applyMove g pid "tonk" md).2 =
        .ok (.gameOver pl.id
          ("Tonk! (Hand value: " ++
            toString (pl.hand.map (fun cr => cr.value)).sum ++ ")")) ∧
      (applyMove g pid "tonk" md).1.gameStatus = "game_over" ∧
      (applyMove g pid "tonk" md).1.winner = some pl.id ∧
      (applyMove g pid "tonk" md).1.winReason =
        some ("Tonk! (Hand value: " ++
          toString (pl.hand.map (fun cr => cr.value)).sum ++ ")") ∧
      (applyMove g pid "tonk" md).1.players = g.players ∧
      (applyMove g pid "tonk" md).1.deck = g.deck ∧
      (applyMove g pid "tonk" md).1.discardPile = g.discardPile ∧
      (applyMove g pid "tonk" md).1.underCard = g.underCard ∧
      (applyMove g pid "tonk" md).1.tableSpreads = g.tableSpreads) ∧
    (5 < (pl.hand.map (fun cr => cr.value)).sum →
      (applyMove g pid "tonk" md).2 = .ok .success ∧
      (applyMove g pid "tonk" md).1.gameStatus = "playing" ∧
      ((applyMove g pid "tonk" md).1.players[g.currentPlayerIndex]?).map
        Player.score = (g.players[g.currentPlayerIndex]?).map (fun q => q.score + 10) ∧
      (applyMove g pid "tonk" md).1.currentPlayerIndex =
        (g.currentPlayerIndex + 1) % g.players.length ∧
      (applyMove g pid "tonk" md).1.turnPhase = "draw" ∧
      (applyMove g pid "tonk" md).1.deck = g.deck ∧
      (applyMove g pid "tonk" md).1.discardPile = g.discardPile ∧
      (applyMove g pid "tonk" md).1.underCard = g.underCard ∧
      (applyMove g pid "tonk" md).1.tableSpreads = g.tableSpreads ∧
      (applyMove g pid "tonk" md).1.players.map Player.hand =
        g.players.map Player.hand ∧
      (applyMove g pid "tonk" md).1.players.map Player.spreads =
        g.players.map Player.spreads) := by
  constructor
  · intro h
    refine ⟨?_, ?_, ?_, ?_, ?_, ?_, ?_, ?_, ?_⟩ <;>
      simp [applyMove, processMove, processTonk, hfind, hget, h, updatePlayer]
  · intro h
    have h5 : ¬((pl.hand.map (fun cr => cr.value)).sum ≤ 5) := by omega
    refine ⟨?_, ?_, ?_, ?_, ?_, ?_, ?_, ?_, ?_, ?_, ?_⟩ <;>
      simp [applyMove, processMove, processTonk, hfind, hget, h5, hstatus, updatePlayer,
        listModify_getElem_eq, Function.comp_def] <;>
      exact map_listModify _ _ _ _ (fun a => rfl)

/-- C7 witness: at the concrete session where p0 holds hand value 3, a
tonk call is a terminal win for p0 with the interpolated reason. -/
theorem tonk_semantics_witness :
    (lowHandGame.gameStatus = "playing" ∧
     lowHandGame.players.findIdx? (fun p => p.id == "p0") =
       some lowHandGame.currentPlayerIndex ∧
     lowHandGame.players[lowHandGame.currentPlayerIndex]? = some lowHandP0 ∧
     (lowHandP0.hand.map (fun cr => cr.value)).sum ≤ 5) ∧
    (applyMove lowHandGame "p0" "tonk" {}).2 =
      .ok (.gameOver lowHandP0.id
        ("Tonk! (Hand value: " ++
          toString (lowHandP0.hand.map (fun cr => cr.value)).sum ++ ")")) :=
  ⟨⟨by decide, by decide, by decide, by decide⟩,
   ((tonk_semantics lowHandGame "p0" {} lowHandP0 (by decide) (by decide)
      (by decide)).1 (by decide)).1⟩

/-- The `last_move` record that `make_move` writes for a call. -/
def mkLastMove (pid nm mt : String) (md : MoveData) : LastMove :=
  { playerId := pid, playerName := nm, moveType := mt, moveData := md }

/-- C8 (amended).  A draw from an empty deck, and a draw from an empty
discard pile, silently no-op: the call is accepted and returns the
success dict (the processor has no EmptySource failure at all), and the
session is unchanged in every field except the recorded `last_move`. -/
theorem draw_empty_silent_noop (g : Game) (pid : String) (md : MoveData) (pl : Player)
    (_hstatus : g.gameStatus = "playing")
    (hfind : g.players.findIdx? (fun p => p.id == pid) = some g.currentPlayerIndex)
    (hget : g.players[g.currentPlayerIndex]? = some pl) :
    (md.source = some "deck" → g.deck = [] →
      applyMove g pid "draw" md =
        ({ g with lastMove := some (mkLastMove pid pl.name "draw" md) },
         .ok .success)) ∧
    (md.source = some "discard" → g.discardPile = [] →
      applyMove g pid "draw" md =
        ({ g with lastMove := some (mkLastMove pid pl.name "draw" md) },
         .ok .success)) := by
  constructor <;> intro hs he <;>
    simp [applyMove, processMove, processDraw, mkLastMove, hfind, hget, hs, he,
      updatePlayer]

/-- Move payload naming the deck source. -/
def mdDeckSource : MoveData := { source := some "deck" }

/-- Move payload naming the discard source. -/
def mdDiscardSource : MoveData := { source := some "discard" }

/-- C8 witness: at the concrete session with empty deck and empty
discard pile, draws from both sources are accepted and only record the
attempted move. -/
theorem draw_empty_silent_noop_witness :
    (emptySourcesGame.gameStatus = "playing" ∧
     emptySourcesGame.players.findIdx? (fun p => p.id == "p0") =
       some emptySourcesGame.currentPlayerIndex ∧
     emptySourcesGame.players[emptySourcesGame.currentPlayerIndex]? =
       some oneCardP0 ∧
     emptySourcesGame.deck = [] ∧ emptySourcesGame.discardPile = []) ∧
    applyMove emptySourcesGame "p0" "draw" mdDeckSource =
      ({ emptySourcesGame with
          lastMove := some (mkLastMove "p0" oneCardP0.name "draw" mdDeckSource) },
       .ok .success) ∧
    applyMove emptySourcesGame "p0" "draw" mdDiscardSource =
      ({ emptySourcesGame with
          lastMove := some (mkLastMove "p0" oneCardP0.name "draw" mdDiscardSource) },
       .ok .success) :=
  ⟨⟨by decide, by decide, by decide, by decide, by decide⟩,
   (draw_empty_silent_noop emptySourcesGame "p0" mdDeckSource oneCardP0
      (by decide) (by decide) (by decide)).1 rfl rfl,
   (draw_empty_silent_noop emptySourcesGame "p0" mdDiscardSource oneCardP0
      (by decide) (by decide) (by decide)).2 rfl rfl⟩

/-- Face-up copy of a card, as dealing marks it. -/
def faceUp (c : Card) : Card := { c with isFaceUp := true }

/-- Dealing `n` cards pops the last `n` cards of the deck in order into
the hand, face up. -/
lemma dealN_eq (n : Nat) (deck hand : List Card) (h : n ≤ deck.length) :
    dealN n deck hand =
      ((deck.reverse.drop n).reverse, hand ++ (deck.reverse.take n).map faceUp) := by
  induction n generalizing deck hand with
  | zero => simp [dealN]
  | succ m ih =>
    rcases List.eq_nil_or_concat deck with hd | ⟨ds, c, rfl⟩
    · subst hd
      simp at h
    · simp only [List.concat_eq_append] at h
      have hlen : m ≤ ds.length := by
        simp at h
        omega
      simp only [List.concat_eq_append, dealN, dealOne, List.getLast?_concat,
        List.dropLast_concat]
      rw [ih ds _ hlen]
      simp [List.reverse_append, List.append_assoc, faceUp]

/-- The hand dealt to seat `i`: the five consecutive cards popped from
the deck top after the earlier seats took theirs, face up. -/
def dealtHand (deck : List Card) (i : Nat) : List Card :=
  ((deck.reverse.drop (5 * i)).take 5).map faceUp

/-- The dealing loop deals five consecutive top cards to each seat in
position order and leaves the rest of the deck in order. -/
lemma dealToPlayers_spec (players : List Player) (deck : List Card)
    (hh : ∀ p ∈ players, p.hand = [])
    (hlen : 5 * players.length ≤ deck.length) :
    (dealToPlayers deck players).1 =
      (deck.reverse.drop (5 * players.length)).reverse ∧
    ∀ i : Nat, ((dealToPlayers deck players).2)[i]? =
      (players[i]?).map (fun p => { p with hand := dealtHand deck i }) := by
  induction players generalizing deck with
  | nil => simp [dealToPlayers]
  | cons p rest ih =>
    have hp : p.hand = [] := hh p (by simp)
    have h5 : 5 ≤ deck.length := by
      simp [List.length_cons] at hlen
      omega
    have hlen2 : 5 * rest.length ≤ ((deck.reverse.drop 5).reverse).length := by
      simp [List.length_cons] at hlen
      simp
      omega
    have ihr := ih ((deck.reverse.drop 5).reverse)
      (fun q hq => hh q (List.mem_cons_of_mem p hq)) hlen2
    have hdeal := dealN_eq 5 deck p.hand h5
    rw [hp] at hdeal
    constructor
    · simp only [dealToPlayers, hp, hdeal]
      rw [ihr.1]
      simp only [List.reverse_reverse, List.drop_drop, List.length_cons]
      congr 2
      ring
    · intro i
      cases i with
      | zero =>
        simp only [dealToPlayers, hp, hdeal, List.nil_append,
          List.getElem?_cons_zero, Option.map_some]
        simp [dealtHand]
      | succ j =>
        simp only [dealToPlayers, hp, hdeal, List.getElem?_cons_succ]
        rw [ihr.2 j]
        have heq : dealtHand ((deck.reverse.drop 5).reverse) j =
            dealtHand deck (j + 1) := by
          simp [dealtHand, List.drop_drop, Nat.mul_succ, Nat.add_comm]
        simp only [heq]

/-- Dealing preserves the number of seats. -/
lemma dealToPlayers_length (deck : List Card) (players : List Player) :
    (dealToPlayers deck players).2.length = players.length := by
  induction players generalizing deck with
  | nil => rfl
  | cons p rest ih => simp [dealToPlayers, ih]

/-- C9.  Start dealing: on a lobby session with two to ten seated
players, empty hands, an empty discard pile and a full 52-card deck,
`start_game` succeeds; it deals five consecutive cards per player in
position order popping from the deck top, seeds the discard pile with
one face-up card, sets one more face-up card aside as the under-card,
and marks the session playing at seat 0, draw phase, turn 1; the deck
then holds 52 - (5n + 2) cards, so 40 for a two-player session. -/
theorem startGame_deals (g : Game)
    (hlobby : g.gameStatus = "lobby")
    (h2 : 2 ≤ g.players.length)
    (h10 : g.players.length ≤ 10)
    (hdeck : g.deck.length = 52)
    (hhands : ∀ p ∈ g.players, p.hand = [])
    (hpile : g.discardPile = []) :
    ∃ g2, startGame g = .ok g2 ∧
      g2.gameStatus = "playing" ∧
      g2.currentPlayerIndex = 0 ∧
      g2.turnPhase = "draw" ∧
      g2.turnCount = 1 ∧
      g2.players.length = g.players.length ∧
      (∀ i : Nat, g2.players[i]? =
        (g.players[i]?).map (fun p => { p with hand := dealtHand g.deck i })) ∧
      (∀ i : Nat, i < g.players.length →
        (g2.players[i]?).map (fun p => p.hand.length) = some 5) ∧
      g2.discardPile.length = 1 ∧
      (∀ cr ∈ g2.discardPile, cr.isFaceUp = true) ∧
      g2.underCard.isSome = true ∧
      g2.underCard.map (fun cr => cr.isFaceUp) = some true ∧
      g2.deck.length = 52 - (5 * g.players.length + 2) ∧
      (g.players.length = 2 → g2.deck.length = 40) := by
  have hlen : 5 * g.players.length ≤ g.deck.length := by omega
  obtain ⟨hd1, hhand⟩ := dealToPlayers_spec g.players g.deck hhands hlen
  have hd1len : (dealToPlayers g.deck g.players).1.length =
      52 - 5 * g.players.length := by
    rw [hd1]
    simp [hdeck]
  rcases hl1 : (dealToPlayers g.deck g.players).1.getLast? with - | c1
  · rw [List.getLast?_eq_none_iff] at hl1
    rw [hl1] at hd1len
    simp at hd1len
    omega
  have hd2len : (dealToPlayers g.deck g.players).1.dropLast.length =
      52 - 5 * g.players.length - 1 := by
    simp [List.length_dropLast, hd1len]
  rcases hl2 : (dealToPlayers g.deck g.players).1.dropLast.getLast? with - | c2
  · rw [List.getLast?_eq_none_iff] at hl2
    rw [hl2] at hd2len
    simp at hd2len
    omega
  have hstart : startGame g = .ok ({ g with
      players := (dealToPlayers g.deck g.players).2,
      deck := (dealToPlayers g.deck g.players).1.dropLast.dropLast,
      discardPile := g.discardPile ++ [{ c1 with isFaceUp := true }],
      underCard := some { c2 with isFaceUp := true },
      gameStatus := "playing", currentPlayerIndex := 0,
      turnPhase := "draw", turnCount := 1 }) := by
    simp only [startGame]
    rw [if_neg (by omega), if_neg (by simp [hlobby])]
    simp only [hl1, hl2]
  refine ⟨_, hstart, rfl, rfl, rfl, rfl, ?_, ?_, ?_, ?_, ?_, rfl, rfl, ?_, ?_⟩
  · exact dealToPlayers_length g.deck g.players
  · exact hhand
  · intro i hi
    rw [hhand i, List.getElem?_eq_getElem hi]
    simp [dealtHand, List.length_take, List.length_drop, hdeck]
    omega
  · simp [hpile]
  · intro cr hcr
    simp [hpile] at hcr
    rw [hcr]
  · simp [List.length_dropLast, hd1len]
    omega
  · intro hn2
    simp [List.length_dropLast, hd1len, hn2]

/-- C9 witness: starting the concrete two-player lobby session with the
unshuffled deck succeeds with all the dealt-state properties. -/
theorem startGame_deals_witness :
    (sampleLobby.gameStatus = "lobby" ∧ 2 ≤ sampleLobby.players.length ∧
     sampleLobby.players.length ≤ 10 ∧ sampleLobby.deck.length = 52 ∧
     (∀ p ∈ sampleLobby.players, p.hand = []) ∧ sampleLobby.discardPile = []) ∧
    (∃ g2, startGame sampleLobby = .ok g2 ∧
      g2.gameStatus = "playing" ∧
      g2.currentPlayerIndex = 0 ∧
      g2.turnPhase = "draw" ∧
      g2.turnCount = 1 ∧
      g2.players.length = sampleLobby.players.length ∧
      (∀ i : Nat, g2.players[i]? =
        (sampleLobby.players[i]?).map
          (fun p => { p with hand := dealtHand sampleLobby.deck i })) ∧
      (∀ i : Nat, i < sampleLobby.players.length →
        (g2.players[i]?).map (fun p => p.hand.length) = some 5) ∧
      g2.discardPile.length = 1 ∧
      (∀ cr ∈ g2.discardPile, cr.isFaceUp = true) ∧
      g2.underCard.isSome = true ∧
      g2.underCard.map (fun cr => cr.isFaceUp) = some true ∧
      g2.deck.length = 52 - (5 * sampleLobby.players.length + 2) ∧
      (sampleLobby.players.length = 2 → g2.deck.length = 40)) :=
  ⟨⟨by decide, by decide, by decide, by decide, by decide, by decide⟩,
   startGame_deals sampleLobby (by decide) (by decide) (by decide) (by decide)
     (by decide) (by decide)⟩
